import Mathlib

/-!
Verification of the Progress & Session Tracking Engine of the Hollow Knight
112% tracker. The repository ships the React frontend (src/frontend), page
sources, type declarations and the README; the FastAPI/DuckDB backend
(backend/main.py) is referenced by the README but is not part of the source
tree here, so the engine operations (catalog store, rollup calculator,
session store, query sandbox) are modelled from the specification, while the
presentation-layer functions (formatCell, the optimistic-toggle handlers, the
session-page partition and guards) are embedded directly from the frontend
sources.

All timestamps are abstracted as natural numbers; percentages are rationals.
-/

namespace HK

/-- An item of the catalog, embedded from the HKItem interface in
src/frontend/src/types.ts. -/
structure HKItem where
  id : Nat
  found : Bool
  name : String
  category : String
  region : String
  information : String
  location_url : Option String
deriving Repr, DecidableEq

/-- Modelled from the spec: the Catalog Store operation getItem of the backend
(backend/main.py is not under src; only its REST callers in
src/frontend/src/api.ts are). Returns the single Item, or none for NotFound. -/
def getItem (catalog : List HKItem) (id : Nat) : Option HKItem :=
  catalog.find? (fun it => it.id == id)

/-- Modelled from the spec: the Catalog Store operation setFound of the backend.
Updates the found flag and returns the new catalog together with the updated
Item; none signals NotFound when the id does not exist. -/
def setFound (catalog : List HKItem) (id : Nat) (v : Bool) :
    Option (List HKItem × HKItem) :=
  match getItem catalog id with
  | none => none
  | some it =>
      some (catalog.map (fun i => if i.id == id then { i with found := v } else i),
            { it with found := v })

/-- A scalar cell value as delivered in SQL query result rows. -/
inductive CellValue where
  | null
  | boolean (b : Bool)
  | str (s : String)
  | int (n : Int)
deriving Repr, DecidableEq

/-- Embedded from formatCell in src/frontend/src/components/SQLConsole.tsx:
null renders as NULL, booleans as a check or cross mark, strings longer than
100 characters are truncated to their first 100 characters plus an ellipsis,
and every other scalar is rendered via String(value). -/
def formatCell : CellValue → String
  | .null => "NULL"
  | .boolean b => if b then "✓" else "✗"
  | .str s => if s.length > 100 then s.take 100 ++ "..." else s
  | .int n => toString n

/-- Error kinds of the engine, from section 7 of the spec: NotFound, Conflict
and InvalidQuery, each carrying a human-readable description. -/
inductive ApiError where
  | notFound (what : String)
  | conflict (why : String)
  | invalidQuery (reason : String)
deriving Repr, DecidableEq

/-- One membership row of the session-membership table: referenced item id and
the added-at timestamp. -/
structure SessionMember where
  item_id : Nat
  added_at : Nat
deriving Repr, DecidableEq

/-- One row of the sessions table: id, display name, creation timestamp,
nullable save timestamp and the membership rows owned by this session. -/
structure SessionRec where
  id : Nat
  name : String
  created_at : Nat
  saved_at : Option Nat
  members : List SessionMember
deriving Repr, DecidableEq

/-- The shared persisted state of the engine: the item catalog and the
sessions with their membership rows. -/
structure EngineState where
  catalog : List HKItem
  sessions : List SessionRec
deriving Repr, DecidableEq

/-- Looks a session up by identifier. -/
def findSession (sessions : List SessionRec) (sid : Nat) : Option SessionRec :=
  sessions.find? (fun s => s.id == sid)

/-- Applies an update function to the session with the given identifier,
leaving every other session untouched. -/
def updateSession (sessions : List SessionRec) (sid : Nat)
    (f : SessionRec → SessionRec) : List SessionRec :=
  sessions.map (fun s => if s.id == sid then f s else s)

/-- Modelled from the spec: the Session Store operation addItem of the backend
(backend/main.py is not under src). Fails with Conflict if the session is
Saved or the item is already a member, with NotFound if session or item is
unknown; otherwise inserts the membership row with added-at = now and returns
the updated state and session. -/
def addItem (st : EngineState) (sid itemId now : Nat) :
    Except ApiError (EngineState × SessionRec) :=
  match findSession st.sessions sid with
  | none => .error (.notFound "session")
  | some s =>
      if s.saved_at.isSome then .error (.conflict "session is saved and immutable")
      else if s.members.any (fun m => m.item_id == itemId) then
        .error (.conflict "item already in session")
      else
        match getItem st.catalog itemId with
        | none => .error (.notFound "item")
        | some _ =>
            let f := fun (t : SessionRec) =>
              { t with members := t.members ++ [⟨itemId, now⟩] }
            .ok ({ st with sessions := updateSession st.sessions sid f }, f s)

/-- Modelled from the spec: the Session Store operation removeItem of the
backend. Fails with Conflict if the session is Saved, with NotFound if the
session or the membership does not exist; otherwise deletes the membership
row. -/
def removeItem (st : EngineState) (sid itemId : Nat) :
    Except ApiError (EngineState × SessionRec) :=
  match findSession st.sessions sid with
  | none => .error (.notFound "session")
  | some s =>
      if s.saved_at.isSome then .error (.conflict "session is saved and immutable")
      else if s.members.any (fun m => m.item_id == itemId) then
        let f := fun (t : SessionRec) =>
          { t with members := t.members.filter (fun m => !(m.item_id == itemId)) }
        .ok ({ st with sessions := updateSession st.sessions sid f }, f s)
      else .error (.notFound "membership")

/-- Modelled from the spec: the Session Store operation clear of the backend.
Fails with Conflict if the session is Saved; otherwise removes all membership
rows. -/
def clearSession (st : EngineState) (sid : Nat) :
    Except ApiError (EngineState × SessionRec) :=
  match findSession st.sessions sid with
  | none => .error (.notFound "session")
  | some s =>
      if s.saved_at.isSome then .error (.conflict "session is saved and immutable")
      else
        let f := fun (t : SessionRec) => { t with members := [] }
        .ok ({ st with sessions := updateSession st.sessions sid f }, f s)

/-- Modelled from the spec: the Session Store operation save of the backend.
Fails with Conflict if already Saved; otherwise sets the save timestamp to
now. The engine does not reject a save with zero members. -/
def saveSession (st : EngineState) (sid now : Nat) :
    Except ApiError (EngineState × SessionRec) :=
  match findSession st.sessions sid with
  | none => .error (.notFound "session")
  | some s =>
      if s.saved_at.isSome then .error (.conflict "session already saved")
      else
        let f := fun (t : SessionRec) => { t with saved_at := some now }
        .ok ({ st with sessions := updateSession st.sessions sid f }, f s)

/-- A member item of a session as resolved against the current catalog: the
SessionItem interface of src/frontend/src/types.ts (the HKItem fields plus the
added-at timestamp). -/
structure ResolvedItem where
  item : HKItem
  added_at : Nat
deriving Repr, DecidableEq

/-- Resolves membership rows live against the current catalog: each member
points at its catalog item, whose current found flag is used. -/
def resolveMembers (catalog : List HKItem) (members : List SessionMember) :
    List ResolvedItem :=
  members.filterMap (fun m => (getItem catalog m.item_id).map (fun it => ⟨it, m.added_at⟩))

/-- A session as surfaced to the caller: the Session interface of
src/frontend/src/types.ts, with the derived item count and the resolved
member items. -/
structure SessionView where
  id : Nat
  name : String
  created_at : Nat
  saved_at : Option Nat
  item_count : Nat
  items : List ResolvedItem
deriving Repr, DecidableEq

/-- Modelled from the spec: the Session Store operation getSession of the
backend. Returns the full session including member items resolved live from
the catalog; NotFound if the id is unknown. -/
def getSession (st : EngineState) (sid : Nat) : Except ApiError SessionView :=
  match findSession st.sessions sid with
  | none => .error (.notFound "session")
  | some s =>
      .ok ⟨s.id, s.name, s.created_at, s.saved_at, s.members.length,
           resolveMembers st.catalog s.members⟩

/-- Sessions ordered by creation timestamp descending, most recent first. -/
def createdDesc (a b : SessionRec) : Prop := b.created_at ≤ a.created_at

instance : DecidableRel createdDesc := fun a b => Nat.decLe b.created_at a.created_at

instance : IsTotal SessionRec createdDesc :=
  ⟨fun a b => Nat.le_total b.created_at a.created_at⟩

instance : IsTrans SessionRec createdDesc :=
  ⟨fun _ _ _ hab hbc => Nat.le_trans hbc hab⟩

/-- Modelled from the spec: the Session Store operation listSessions of the
backend. Returns all sessions, both Active and Saved, ordered by creation
timestamp descending. -/
def listSessions (st : EngineState) : List SessionRec :=
  List.insertionSort createdDesc st.sessions

/-- Embedded from the SessionPage component (src/unnamed/part_002): the caller
partitions the session list into active sessions, those whose save timestamp
is unset. -/
def activeSessions (sessions : List SessionRec) : List SessionRec :=
  sessions.filter (fun s => !s.saved_at.isSome)

/-- Embedded from the SessionPage component (src/unnamed/part_002): the saved
sessions, those whose save timestamp is set. -/
def savedSessions (sessions : List SessionRec) : List SessionRec :=
  sessions.filter (fun s => s.saved_at.isSome)

/-- Embedded from the SessionPage component (src/unnamed/part_002): the Save
Session button is disabled exactly when the active session has no items
(items missing or of length zero is falsy in the guard). -/
def saveButtonDisabled (items : Option (List ResolvedItem)) : Bool :=
  match items with
  | none => true
  | some l => l.isEmpty

/-- The column list of the relational projection of the catalog exposed to the
query sandbox (the hk table). -/
def hkColumns : List String :=
  ["id", "found", "name", "category", "region", "information", "location_url"]

/-- One projected row of the hk table for an item; cell values are passed
through unmodified, with no truncation. -/
def itemRow (it : HKItem) : List CellValue :=
  [.int it.id, .boolean it.found, .str it.name, .str it.category, .str it.region,
   .str it.information,
   match it.location_url with
   | none => .null
   | some u => .str u]

/-- An ephemeral query result: column names, positional rows and the row
count, from the SQLResult interface of src/frontend/src/types.ts. -/
structure QueryResult where
  columns : List String
  rows : List (List CellValue)
  row_count : Nat
deriving Repr, DecidableEq

/-- The first keyword of a statement: leading whitespace stripped, the leading
alphabetic run, uppercased. -/
def firstKeyword (s : String) : String :=
  String.mk (((s.data.dropWhile (fun c => c.isWhitespace)).takeWhile
    (fun c => c.isAlpha)).map Char.toUpper)

/-- Data-definition statements: the first keyword is a DDL keyword. -/
def isDDL (s : String) : Bool :=
  ["CREATE", "DROP", "ALTER", "TRUNCATE"].contains (firstKeyword s)

/-- Data-modification statements: the first keyword is a DML keyword. -/
def isDML (s : String) : Bool :=
  ["INSERT", "UPDATE", "DELETE"].contains (firstKeyword s)

/-- Multi-statement input: statements separated by the terminator. -/
def isMultiStatement (s : String) : Bool :=
  s.data.any (fun c => c == Char.ofNat 59)

/-- Modelled from the spec: the Query Sandbox validation of the backend
(backend/main.py is not under src). Rejects input holding a statement
terminator, then any statement whose first keyword is not the read-query
keyword; returns the rejection reason, or none when the statement is
accepted. -/
def validateQuery (q : String) : Option String :=
  if isMultiStatement q then some "multiple statements not allowed"
  else if firstKeyword q == "SELECT" then none
  else some "only read statements are permitted"

/-- Modelled from the spec: the Query Sandbox execute operation of the
backend. Validates, then runs against a read-only relational projection of
the catalog and returns a fresh QueryResult whose row count is the length of
its row list; the state is returned unchanged. -/
def executeQuery (q : String) (st : EngineState) :
    Except ApiError QueryResult × EngineState :=
  match validateQuery q with
  | some reason => (.error (.invalidQuery reason), st)
  | none =>
      let rows := st.catalog.map itemRow
      (.ok ⟨hkColumns, rows, rows.length⟩, st)

/-- Rounds a rational to two decimal places. -/
def round2 (q : ℚ) : ℚ := (round (q * 100) : ℚ) / 100

/-- Modelled from the spec: the completion-percentage rule of the Rollup
Calculator of the backend: round(found / total × 100, 2 decimal places), and
0 when the group total is 0. -/
def completionPercent (foundCount total : Nat) : ℚ :=
  if total = 0 then 0 else round2 ((foundCount : ℚ) / (total : ℚ) * 100)

/-- Overall completion statistics, from the Stats interface of
src/frontend/src/types.ts. -/
structure Stats where
  total : Nat
  found_count : Nat
  not_found_count : Nat
  completion_percent : ℚ
deriving Repr, DecidableEq

/-- Per-region completion statistics, from the RegionStats interface of
src/frontend/src/types.ts. -/
structure RegionStats where
  region : String
  total : Nat
  found_count : Nat
  not_found_count : Nat
  completion_percent : ℚ
deriving Repr, DecidableEq

/-- Per-category completion statistics, from the CategoryStats interface of
src/frontend/src/types.ts. -/
structure CategoryStats where
  category : String
  total : Nat
  found_count : Nat
  not_found_count : Nat
  completion_percent : ℚ
deriving Repr, DecidableEq

/-- Modelled from the spec: the Rollup Calculator overallStats of the backend,
computed over every item of the catalog. -/
def overallStats (catalog : List HKItem) : Stats :=
  let t := catalog.length
  let f := catalog.countP (fun it => it.found)
  ⟨t, f, t - f, completionPercent f t⟩

/-- The distinct, sorted region values currently present in the catalog. -/
def regionsOf (catalog : List HKItem) : List String :=
  List.insertionSort (fun a b => a ≤ b) (catalog.map (fun it => it.region)).dedup

/-- The distinct, sorted category values currently present in the catalog. -/
def categoriesOf (catalog : List HKItem) : List String :=
  List.insertionSort (fun a b => a ≤ b) (catalog.map (fun it => it.category)).dedup

/-- The rollup row for one region value. -/
def regionStat (catalog : List HKItem) (r : String) : RegionStats :=
  let t := catalog.countP (fun it => it.region == r)
  let f := catalog.countP (fun it => it.region == r && it.found)
  ⟨r, t, f, t - f, completionPercent f t⟩

/-- The rollup row for one category value. -/
def categoryStat (catalog : List HKItem) (c : String) : CategoryStats :=
  let t := catalog.countP (fun it => it.category == c)
  let f := catalog.countP (fun it => it.category == c && it.found)
  ⟨c, t, f, t - f, completionPercent f t⟩

/-- Modelled from the spec: the Rollup Calculator statsByRegion of the
backend: one RegionStats row per distinct region value, sorted by region
name. -/
def statsByRegion (catalog : List HKItem) : List RegionStats :=
  (regionsOf catalog).map (regionStat catalog)

/-- Modelled from the spec: the Rollup Calculator statsByCategory of the
backend: one CategoryStats row per distinct category value, sorted by
category name. -/
def statsByCategory (catalog : List HKItem) : List CategoryStats :=
  (categoriesOf catalog).map (categoryStat catalog)

/-- Embedded from handleToggleFound in src/frontend/src/App.tsx and the
Checklist page (src/unnamed/part_003): the optimistic update sets the found
flag of the toggled item to the negation of its value on the clicked row. -/
def optimisticToggle (items : List HKItem) (item : HKItem) : List HKItem :=
  items.map (fun i => if i.id == item.id then { i with found := !item.found } else i)

/-- Embedded from handleToggleFound in src/frontend/src/App.tsx and the
Checklist page (src/unnamed/part_003): on failure the update is rolled back by
setting the found flag of the toggled item to the negation of the new
value. -/
def rollbackToggle (items : List HKItem) (item : HKItem) : List HKItem :=
  items.map (fun i => if i.id == item.id then { i with found := !(!item.found) } else i)

/-- A concrete catalog item used to exercise the theorems. -/
def itemA : HKItem := ⟨10, false, "Vengeful Spirit", "Spell", "Ancestral Mound", "", none⟩

/-- A second concrete catalog item. -/
def itemB : HKItem :=
  ⟨11, true, "Mothwing Cloak", "Ability", "Greenpath", "", some "map"⟩

/-- A concrete engine state: two catalog items, one active session holding
itemA and one saved session. -/
def demoState : EngineState :=
  ⟨[itemA, itemB], [⟨1, "Run1", 3, none, [⟨10, 0⟩]⟩, ⟨2, "Old", 1, some 2, []⟩]⟩

/-- A concrete engine state with an empty active session. -/
def demoEmpty : EngineState := ⟨[itemA], [⟨4, "Empty", 0, none, []⟩]⟩

/-- The concrete query result of running the read query on demoState. -/
def demoRes : QueryResult := ⟨hkColumns, [itemRow itemA, itemRow itemB], 2⟩

/-- A string of 101 identical characters, longer than the display cap. -/
def longString : String := String.mk (List.replicate 101 (Char.ofNat 97))

/-- The first demo item with its found flag set. -/
def itemATrue : HKItem := ⟨10, true, "Vengeful Spirit", "Spell", "Ancestral Mound", "", none⟩

/-- The demo state after saving session 1 at time 5. -/
def demoSaved : EngineState :=
  ⟨[itemA, itemB], [⟨1, "Run1", 3, some 5, [⟨10, 0⟩]⟩, ⟨2, "Old", 1, some 2, []⟩]⟩

/-- Session 1 of the demo state after the save. -/
def demoSavedSession : SessionRec := ⟨1, "Run1", 3, some 5, [⟨10, 0⟩]⟩

/-- Looking an item up after a found-flag update yields the updated item. -/
theorem getItem_map_setFound (catalog : List HKItem) (id : Nat) (v : Bool) :
    getItem (catalog.map (fun i => if i.id == id then { i with found := v } else i)) id
      = (getItem catalog id).map (fun i => { i with found := v }) := by
  induction catalog with
  | nil => rfl
  | cons x xs ih =>
    unfold getItem at ih ⊢
    by_cases hx : x.id = id
    · have hb : (x.id == id) = true := beq_iff_eq.mpr hx
      simp only [List.map_cons, hb, if_true]
      rw [List.find?_cons_of_pos _ (by simpa using hb),
          List.find?_cons_of_pos (p := fun (it : HKItem) => it.id == id) _ hb]
      rfl
    · have hb : (x.id == id) = false := by simpa using hx
      simp only [List.map_cons, hb, Bool.false_eq_true, if_false]
      rw [List.find?_cons_of_neg _ (by simp [hb]),
          List.find?_cons_of_neg _ (by simp [hb])]
      exact ih

/-- Looking a session up after updating it by identifier yields the updated
session, provided the update preserves the identifier. -/
theorem findSession_updateSession (sessions : List SessionRec) (sid : Nat)
    (f : SessionRec → SessionRec) (hf : ∀ s, (f s).id = s.id) :
    findSession (updateSession sessions sid f) sid = (findSession sessions sid).map f := by
  induction sessions with
  | nil => rfl
  | cons x xs ih =>
    unfold findSession updateSession at ih ⊢
    by_cases hx : x.id = sid
    · have hb : (x.id == sid) = true := beq_iff_eq.mpr hx
      simp only [List.map_cons, hb, if_true]
      rw [List.find?_cons_of_pos _ (by simp [hf, hb]),
          List.find?_cons_of_pos (p := fun (s : SessionRec) => s.id == sid) _ hb]
      rfl
    · have hb : (x.id == sid) = false := by simpa using hx
      simp only [List.map_cons, hb, Bool.false_eq_true, if_false]
      rw [List.find?_cons_of_neg _ (by simp [hb]),
          List.find?_cons_of_neg _ (by simp [hb])]
      exact ih

/-- Claim C6: for every item identifier present in the catalog and every
boolean v, setFound(id, v) followed by getItem(id) returns an Item whose
found flag equals v. -/
theorem setFound_then_getItem (catalog cat2 : List HKItem) (id : Nat) (v : Bool)
    (it : HKItem) (h : setFound catalog id v = some (cat2, it)) :
    ∃ r, getItem cat2 id = some r ∧ r.found = v := by
  unfold setFound at h
  cases hg : getItem catalog id with
  | none => rw [hg] at h; exact absurd h (by simp)
  | some it0 =>
    rw [hg] at h
    have h1 : cat2 = catalog.map (fun i => if i.id == id then { i with found := v } else i) := by
      cases h; rfl
    subst h1
    rw [getItem_map_setFound, hg]
    exact ⟨_, rfl, rfl⟩

/-- Witness for C6 on the concrete demo catalog. -/
theorem setFound_then_getItem_witness :
    ∃ r, getItem [itemATrue, itemB] 10 = some r ∧ r.found = true :=
  setFound_then_getItem [itemA, itemB] [itemATrue, itemB] 10 true itemATrue rfl

/-- Claim C9: the formatCell display function is total over all cell values:
null maps to NULL, booleans map to a check or cross mark, every string longer
than 100 characters is truncated to its first 100 characters plus an
ellipsis, and the query engine hands rows to the presentation layer
unmodified, so truncation happens only in the presentation layer. -/
theorem formatCell_spec :
    formatCell .null = "NULL" ∧
    (∀ b, formatCell (.boolean b) = if b then "✓" else "✗") ∧
    (∀ s, 100 < s.length → formatCell (.str s) = s.take 100 ++ "...") ∧
    (∀ q st res st2, executeQuery q st = (.ok res, st2) →
      res.rows = st.catalog.map itemRow) := by
  refine ⟨rfl, fun b => rfl, fun s hs => ?_, fun q st res st2 h => ?_⟩
  · simp [formatCell, hs]
  · unfold executeQuery at h
    cases hv : validateQuery q with
    | some reason => rw [hv] at h; exact absurd h (by simp)
    | none =>
        rw [hv] at h
        have : res = ⟨hkColumns, st.catalog.map itemRow, (st.catalog.map itemRow).length⟩ := by
          cases h; rfl
        rw [this]

/-- Witness for C9: the long concrete string is truncated by formatCell and
the concrete query result rows are the untruncated projection. -/
theorem formatCell_spec_witness :
    formatCell (.str longString) = longString.take 100 ++ "..." ∧
    demoRes.rows = demoState.catalog.map itemRow :=
  ⟨formatCell_spec.2.2.1 longString (by decide),
   formatCell_spec.2.2.2 "SELECT * FROM hk" demoState demoRes demoState rfl⟩

/-- Claim C10: when a found-toggle request fails, the optimistic update of the
Checklist page is rolled back: provided every displayed row with the toggled
identifier shows the pre-toggle found value, applying the rollback to the
optimistically updated list restores the original list. -/
theorem rollback_restores (items : List HKItem) (item : HKItem)
    (h : ∀ i ∈ items, i.id = item.id → i.found = item.found) :
    rollbackToggle (optimisticToggle items item) item = items := by
  unfold rollbackToggle optimisticToggle
  rw [List.map_map]
  have hpt : ∀ i ∈ items,
      ((fun i => if i.id == item.id then { i with found := !(!item.found) } else i) ∘
       (fun i => if i.id == item.id then { i with found := !item.found } else i)) i = i := by
    intro i hi
    by_cases hx : i.id = item.id
    · have hb : (i.id == item.id) = true := beq_iff_eq.mpr hx
      have hfound : i.found = item.found := h i hi hx
      simp [Function.comp, hb, Bool.not_not, ← hfound]
    · have hb : (i.id == item.id) = false := by simpa using hx
      simp [Function.comp, hb]
  calc (items.map _) = items.map id := List.map_congr_left (by simpa using hpt)
    _ = items := List.map_id items

/-- Witness for C10 on a concrete two-item list. -/
theorem rollback_restores_witness :
    rollbackToggle (optimisticToggle [itemA, itemB] itemA) itemA = [itemA, itemB] :=
  rollback_restores [itemA, itemB] itemA (by decide)

/-- Inversion of a successful setFound: the new catalog is the pointwise
update of the old one and the returned item is the updated looked-up item. -/
theorem setFound_ok (catalog cat2 : List HKItem) (id : Nat) (v : Bool) (it : HKItem)
    (h : setFound catalog id v = some (cat2, it)) :
    cat2 = catalog.map (fun i => if i.id == id then { i with found := v } else i) := by
  unfold setFound at h
  cases hg : getItem catalog id with
  | none => rw [hg] at h; exact absurd h (by simp)
  | some it0 => rw [hg] at h; cases h; rfl

/-- After a successful setFound, every catalog item carrying the updated
identifier has the new found value. -/
theorem mem_setFound_found (catalog cat2 : List HKItem) (id : Nat) (v : Bool)
    (it : HKItem) (h : setFound catalog id v = some (cat2, it)) :
    ∀ r ∈ cat2, r.id = id → r.found = v := by
  have hcat := setFound_ok catalog cat2 id v it h
  subst hcat
  intro r hr hid
  obtain ⟨x, hx, hmap⟩ := List.mem_map.mp hr
  by_cases hxid : x.id = id
  · have hb : (x.id == id) = true := beq_iff_eq.mpr hxid
    rw [← hmap]
    simp [hb]
  · have hb : (x.id == id) = false := by simpa using hxid
    rw [← hmap] at hid
    simp [hb] at hid
    exact absurd hid hxid

/-- Inversion of a successful save: the session existed, was active, and the
new state marks exactly that session as saved, leaving the catalog alone. -/
theorem saveSession_ok (st st2 : EngineState) (s2 : SessionRec) (sid now : Nat)
    (h : saveSession st sid now = .ok (st2, s2)) :
    ∃ s, findSession st.sessions sid = some s ∧ s.saved_at = none ∧
      st2.catalog = st.catalog ∧
      st2.sessions = updateSession st.sessions sid (fun t => { t with saved_at := some now }) ∧
      s2 = { s with saved_at := some now } := by
  unfold saveSession at h
  split at h
  · exact absurd h (by simp)
  · rename_i s hs
    split at h
    · exact absurd h (by simp)
    · rename_i hsv
      exact ⟨s, hs, Option.not_isSome_iff_eq_none.mp hsv,
        by cases h; rfl, by cases h; rfl, by cases h; rfl⟩

/-- After a successful save, looking the session up in the new state yields
the returned saved session. -/
theorem findSession_after_save (st st2 : EngineState) (s2 : SessionRec) (sid now : Nat)
    (h : saveSession st sid now = .ok (st2, s2)) :
    findSession st2.sessions sid = some s2 ∧ s2.saved_at = some now ∧
      st2.catalog = st.catalog := by
  obtain ⟨s, hs, hsv, hcat, hsess, hs2⟩ := saveSession_ok st st2 s2 sid now h
  refine ⟨?_, by rw [hs2], hcat⟩
  rw [hsess, findSession_updateSession st.sessions sid
    (fun t => { t with saved_at := some now }) (fun t => rfl), hs, hs2]
  rfl

/-- Claim C1: once save succeeds on a session, every subsequent addItem,
removeItem, clear or save on that session fails with Conflict, and getSession
keeps resolving the frozen membership live from the current catalog: after a
found toggle, every resolved member item carrying the toggled identifier
shows the new found value. -/
theorem save_freezes_session (st st2 : EngineState) (s2 : SessionRec) (sid now : Nat)
    (h : saveSession st sid now = .ok (st2, s2)) :
    (∀ itemId t, addItem st2 sid itemId t =
        .error (.conflict "session is saved and immutable")) ∧
    (∀ itemId, removeItem st2 sid itemId =
        .error (.conflict "session is saved and immutable")) ∧
    clearSession st2 sid = .error (.conflict "session is saved and immutable") ∧
    (∀ t, saveSession st2 sid t = .error (.conflict "session already saved")) ∧
    (∀ id v cat2 it, setFound st2.catalog id v = some (cat2, it) →
      ∃ view, getSession ⟨cat2, st2.sessions⟩ sid = .ok view ∧
        view.items = resolveMembers cat2 s2.members ∧
        ∀ ri ∈ view.items, ri.item.id = id → ri.item.found = v) := by
  obtain ⟨hfs, hsv, -⟩ := findSession_after_save st st2 s2 sid now h
  refine ⟨fun itemId t => ?_, fun itemId => ?_, ?_, fun t => ?_, ?_⟩
  · unfold addItem; rw [hfs]; simp [hsv]
  · unfold removeItem; rw [hfs]; simp [hsv]
  · unfold clearSession; rw [hfs]; simp [hsv]
  · unfold saveSession; rw [hfs]; simp [hsv]
  · intro id v cat2 it hsf
    have hfs2 : findSession (⟨cat2, st2.sessions⟩ : EngineState).sessions sid = some s2 := hfs
    refine ⟨⟨s2.id, s2.name, s2.created_at, s2.saved_at, s2.members.length,
        resolveMembers cat2 s2.members⟩, ?_, rfl, ?_⟩
    · unfold getSession; rw [hfs2]
    · intro ri hri hid
      obtain ⟨m, hm, hfm⟩ := List.mem_filterMap.mp hri
      cases hg : getItem cat2 m.item_id with
      | none => rw [hg] at hfm; exact absurd hfm (by simp)
      | some r =>
          rw [hg] at hfm
          have hrit : ri.item = r := by cases hfm; rfl
          have hrmem : r ∈ cat2 := List.mem_of_find?_eq_some hg
          have := mem_setFound_found st2.catalog cat2 id v it hsf r hrmem (by rw [← hrit]; exact hid)
          rw [hrit]; exact this

/-- Witness for C1 on the concrete demo state. -/
theorem save_freezes_session_witness :
    (∀ itemId t, addItem demoSaved 1 itemId t =
        .error (.conflict "session is saved and immutable")) ∧
    (∀ itemId, removeItem demoSaved 1 itemId =
        .error (.conflict "session is saved and immutable")) ∧
    clearSession demoSaved 1 = .error (.conflict "session is saved and immutable") ∧
    (∀ t, saveSession demoSaved 1 t = .error (.conflict "session already saved")) ∧
    (∀ id v cat2 it, setFound demoSaved.catalog id v = some (cat2, it) →
      ∃ view, getSession ⟨cat2, demoSaved.sessions⟩ 1 = .ok view ∧
        view.items = resolveMembers cat2 demoSavedSession.members ∧
        ∀ ri ∈ view.items, ri.item.id = id → ri.item.found = v) :=
  save_freezes_session demoState demoSaved demoSavedSession 1 5 rfl

/-- Claim C3: on an active session, adding an item that is not yet a member
succeeds and raises the item count by exactly one, and adding the same item a
second time fails with Conflict, leaving the count at plus one, not plus
two. -/
theorem addItem_twice (st : EngineState) (sid itemId t1 t2 : Nat) (s : SessionRec)
    (hs : findSession st.sessions sid = some s) (hactive : s.saved_at = none)
    (hnm : s.members.any (fun m => m.item_id == itemId) = false)
    (hit : (getItem st.catalog itemId).isSome = true) :
    ∃ st1 s1, addItem st sid itemId t1 = .ok (st1, s1) ∧
      s1.members.length = s.members.length + 1 ∧
      (∃ view, getSession st1 sid = .ok view ∧ view.item_count = s.members.length + 1) ∧
      addItem st1 sid itemId t2 = .error (.conflict "item already in session") := by
  cases hg : getItem st.catalog itemId with
  | none => rw [hg] at hit; exact absurd hit (by simp)
  | some w =>
      have hfs1 : findSession (updateSession st.sessions sid
          (fun t => { t with members := t.members ++ [⟨itemId, t1⟩] })) sid =
          some { s with members := s.members ++ [⟨itemId, t1⟩] } := by
        rw [findSession_updateSession st.sessions sid
          (fun t => { t with members := t.members ++ [⟨itemId, t1⟩] }) (fun t => rfl), hs]
        rfl
      refine ⟨{ st with sessions := (updateSession st.sessions sid
          (fun t => { t with members := t.members ++ [⟨itemId, t1⟩] })) },
        { s with members := s.members ++ [⟨itemId, t1⟩] }, ?_, by simp, ?_, ?_⟩
      · unfold addItem
        rw [hs]
        simp [hactive, hnm, hg]
      · refine ⟨⟨s.id, s.name, s.created_at, s.saved_at,
          (s.members ++ [(⟨itemId, t1⟩ : SessionMember)]).length,
          resolveMembers st.catalog (s.members ++ [(⟨itemId, t1⟩ : SessionMember)])⟩,
          ?_, by simp⟩
        unfold getSession
        dsimp only
        rw [hfs1]
      · unfold addItem
        dsimp only
        rw [hfs1]
        simp [hactive]

/-- Witness for C3 on the concrete demo state. -/
theorem addItem_twice_witness :
    ∃ st1 s1, addItem demoState 1 11 7 = .ok (st1, s1) ∧
      s1.members.length = (⟨1, "Run1", 3, none, [⟨10, 0⟩]⟩ : SessionRec).members.length + 1 ∧
      (∃ view, getSession st1 1 = .ok view ∧
        view.item_count = (⟨1, "Run1", 3, none, [⟨10, 0⟩]⟩ : SessionRec).members.length + 1) ∧
      addItem st1 1 11 8 = .error (.conflict "item already in session") :=
  addItem_twice demoState 1 11 7 8 ⟨1, "Run1", 3, none, [⟨10, 0⟩]⟩ rfl rfl rfl rfl

/-- Claim C8: the engine itself permits saving an active session with zero
members; emptiness is guarded only at the presentation level, where the Save
Session button is disabled for a session with no items. -/
theorem save_empty_session (st : EngineState) (sid now : Nat) (s : SessionRec)
    (hs : findSession st.sessions sid = some s) (hactive : s.saved_at = none)
    (hempty : s.members = []) :
    (∃ st2 s2, saveSession st sid now = .ok (st2, s2) ∧ s2.saved_at = some now ∧
      s2.members = []) ∧
    saveButtonDisabled (some []) = true ∧ saveButtonDisabled none = true := by
  refine ⟨?_, rfl, rfl⟩
  unfold saveSession
  rw [hs]
  simp only [hactive, Option.isSome_none, Bool.false_eq_true, if_false]
  exact ⟨_, _, rfl, rfl, by simpa using hempty⟩

/-- Witness for C8 on the concrete empty demo session. -/
theorem save_empty_session_witness :
    (∃ st2 s2, saveSession demoEmpty 4 9 = .ok (st2, s2) ∧ s2.saved_at = some 9 ∧
      s2.members = []) ∧
    saveButtonDisabled (some []) = true ∧ saveButtonDisabled none = true :=
  save_empty_session demoEmpty 4 9 ⟨4, "Empty", 0, none, []⟩ rfl rfl rfl

/-- Claim C7: listSessions returns all sessions, both active and saved,
ordered by creation timestamp descending, and the SessionPage partitions the
surfaced list on save-timestamp nullness into active and saved sessions that
together are exactly the surfaced list. -/
theorem listSessions_spec (st : EngineState) :
    List.Perm (listSessions st) st.sessions ∧
    List.Sorted createdDesc (listSessions st) ∧
    List.Perm (activeSessions (listSessions st) ++ savedSessions (listSessions st))
      (listSessions st) := by
  refine ⟨List.perm_insertionSort createdDesc st.sessions,
    List.sorted_insertionSort createdDesc st.sessions, ?_⟩
  have hq : savedSessions (listSessions st)
      = (listSessions st).filter (fun s => !(!s.saved_at.isSome)) := by
    unfold savedSessions
    exact (List.filter_congr (fun x _ => by simp)).symm
  unfold activeSessions
  rw [hq]
  exact List.filter_append_perm (fun s => !s.saved_at.isSome) (listSessions st)

/-- Claim C2: every successful execute returns a QueryResult whose row count
equals the length of its row list; execute on a data-definition statement, a
data-modification statement or multi-statement input always fails with
InvalidQuery; and execute never changes the engine state. -/
theorem executeQuery_spec :
    (∀ q st res st2, executeQuery q st = (.ok res, st2) →
      res.row_count = res.rows.length) ∧
    (∀ q st, (isDDL q || isDML q || isMultiStatement q) = true →
      ∃ reason, (executeQuery q st).1 = .error (.invalidQuery reason)) ∧
    (∀ q st, (executeQuery q st).2 = st) := by
  refine ⟨fun q st res st2 h => ?_, fun q st h => ?_, fun q st => ?_⟩
  · unfold executeQuery at h
    cases hv : validateQuery q with
    | some reason => rw [hv] at h; exact absurd h (by simp)
    | none =>
        rw [hv] at h
        have hres : res = ⟨hkColumns, st.catalog.map itemRow,
            (st.catalog.map itemRow).length⟩ := by
          cases h; rfl
        rw [hres]
  · unfold executeQuery
    cases hv : validateQuery q with
    | some reason => exact ⟨reason, rfl⟩
    | none =>
        exfalso
        unfold validateQuery at hv
        by_cases hm : isMultiStatement q = true
        · rw [if_pos hm] at hv; exact absurd hv (by simp)
        · rw [if_neg hm] at hv
          by_cases hsel : (firstKeyword q == "SELECT") = true
          · have hksel : firstKeyword q = "SELECT" := by simpa using hsel
            have hddl : isDDL q = false := by unfold isDDL; rw [hksel]; decide
            have hdml : isDML q = false := by unfold isDML; rw [hksel]; decide
            have hmf : isMultiStatement q = false := by simpa using hm
            rw [hddl, hdml, hmf] at h
            exact absurd h (by simp)
          · rw [if_neg hsel] at hv; exact absurd hv (by simp)
  · unfold executeQuery
    cases hv : validateQuery q with
    | some reason => rfl
    | none => rfl

/-- Witness for C2: a concrete read query succeeds with a consistent row
count, a concrete DROP statement is rejected, and the state is unchanged by a
concrete UPDATE attempt. -/
theorem executeQuery_spec_witness :
    demoRes.row_count = demoRes.rows.length ∧
    (∃ reason, (executeQuery "DROP TABLE hk" demoState).1 =
      .error (.invalidQuery reason)) ∧
    (executeQuery "UPDATE hk SET found = 1" demoState).2 = demoState :=
  ⟨executeQuery_spec.1 "SELECT * FROM hk" demoState demoRes demoState rfl,
   executeQuery_spec.2.1 "DROP TABLE hk" demoState (by decide),
   executeQuery_spec.2.2 "UPDATE hk SET found = 1" demoState⟩

/-- Claim C4: every completion percentage equals the two-decimal rounding of
found over total times 100, lies between 0 and 100, and a group with total 0
yields percentage 0 rather than an error. -/
theorem completionPercent_spec (f t : Nat) (h : f ≤ t) :
    0 ≤ completionPercent f t ∧ completionPercent f t ≤ 100 ∧
    (t ≠ 0 → completionPercent f t =
      (round ((f : ℚ) / (t : ℚ) * 100 * 100) : ℚ) / 100) ∧
    completionPercent f 0 = 0 := by
  by_cases ht : t = 0
  · subst ht
    exact ⟨le_refl 0, by norm_num [completionPercent], fun hc => absurd rfl hc, rfl⟩
  · have htp : (0:ℚ) < (t:ℚ) := by exact_mod_cast Nat.pos_of_ne_zero ht
    have hx0 : (0:ℚ) ≤ (f:ℚ) / (t:ℚ) * 100 * 100 := by positivity
    have hx1 : (f:ℚ) / (t:ℚ) ≤ 1 := by
      rw [div_le_one htp]; exact_mod_cast h
    have hx2 : (f:ℚ) / (t:ℚ) * 100 * 100 ≤ 10000 := by nlinarith
    have hr0 : (0:ℤ) ≤ round ((f:ℚ) / (t:ℚ) * 100 * 100) := by
      rw [round_eq]; exact Int.floor_nonneg.mpr (by linarith)
    have hr1 : round ((f:ℚ) / (t:ℚ) * 100 * 100) ≤ 10000 := by
      rw [round_eq]
      have hle : (f:ℚ) / (t:ℚ) * 100 * 100 + 1/2 ≤ ((10000:ℤ):ℚ) + 1/2 := by
        push_cast; linarith
      calc ⌊(f:ℚ) / (t:ℚ) * 100 * 100 + 1/2⌋ ≤ ⌊((10000:ℤ):ℚ) + 1/2⌋ :=
            Int.floor_mono hle
        _ = 10000 + ⌊(1/2:ℚ)⌋ := Int.floor_int_add 10000 (1/2)
        _ = 10000 := by
            rw [show ⌊(1/2:ℚ)⌋ = 0 from Int.floor_eq_iff.mpr (by norm_num)]
            omega
    have hval : completionPercent f t =
        (round ((f:ℚ) / (t:ℚ) * 100 * 100) : ℚ) / 100 := by
      unfold completionPercent round2
      rw [if_neg ht]
    have hc0 : (0:ℚ) ≤ (round ((f:ℚ) / (t:ℚ) * 100 * 100) : ℚ) := by exact_mod_cast hr0
    have hc1 : ((round ((f:ℚ) / (t:ℚ) * 100 * 100)) : ℚ) ≤ 10000 := by exact_mod_cast hr1
    refine ⟨?_, ?_, fun _ => hval, rfl⟩
    · rw [hval]; linarith
    · rw [hval]; linarith

/-- Witness for C4 at one found item out of three. -/
theorem completionPercent_spec_witness :
    0 ≤ completionPercent 1 3 ∧ completionPercent 1 3 ≤ 100 ∧
    (3 ≠ 0 → completionPercent 1 3 =
      (round ((1 : ℚ) / (3 : ℚ) * 100 * 100) : ℚ) / 100) ∧
    completionPercent 1 0 = 0 :=
  completionPercent_spec 1 3 (by norm_num)

/-- A per-key indicator sums to zero over a key list missing the key. -/
theorem sum_indicator_eq_zero (ks : List String) (a : String) (ha : a ∉ ks) :
    (ks.map (fun k => if a == k then 1 else 0)).sum = 0 := by
  induction ks with
  | nil => rfl
  | cons k ks ih =>
      have hak : a ≠ k := fun hc => ha (hc ▸ List.mem_cons_self k ks)
      have hb : (a == k) = false := by simpa using hak
      simp only [List.map_cons, List.sum_cons, hb, Bool.false_eq_true, if_false]
      rw [ih (fun hc => ha (List.mem_cons_of_mem k hc))]

/-- A per-key indicator sums to one over a duplicate-free key list holding
the key. -/
theorem sum_indicator_eq_one (ks : List String) (a : String) (hnd : ks.Nodup)
    (ha : a ∈ ks) : (ks.map (fun k => if a == k then 1 else 0)).sum = 1 := by
  induction ks with
  | nil => exact absurd ha (List.not_mem_nil a)
  | cons k ks ih =>
      by_cases hak : a = k
      · have hb : (a == k) = true := beq_iff_eq.mpr hak
        simp only [List.map_cons, List.sum_cons, hb, if_true]
        have hknot : k ∉ ks := (List.nodup_cons.mp hnd).1
        rw [sum_indicator_eq_zero ks a (hak ▸ hknot)]
      · have hb : (a == k) = false := by simpa using hak
        simp only [List.map_cons, List.sum_cons, hb, Bool.false_eq_true, if_false]
        have hmem : a ∈ ks := by
          cases List.mem_cons.mp ha with
          | inl hc => exact absurd hc hak
          | inr hc => exact hc
        rw [ih (List.nodup_cons.mp hnd).2 hmem]

/-- Sums of pointwise sums of two functions over a list split. -/
theorem sum_map_add {α : Type} (l : List α) (f g : α → Nat) :
    (l.map (fun x => f x + g x)).sum = (l.map f).sum + (l.map g).sum := by
  induction l with
  | nil => rfl
  | cons x xs ih =>
      simp only [List.map_cons, List.sum_cons, ih]
      omega

/-- Counting with a predicate split by a key over a duplicate-free covering
key list sums to the plain count: the keys partition the matching elements. -/
theorem sum_countP_eq_countP {α : Type} (key : α → String) (p : α → Bool)
    (l : List α) (ks : List String) (hnd : ks.Nodup)
    (hcov : ∀ x ∈ l, p x = true → key x ∈ ks) :
    (ks.map (fun k => l.countP (fun x => key x == k && p x))).sum = l.countP p := by
  induction l with
  | nil => simp
  | cons x xs ih =>
      have hcov2 : ∀ y ∈ xs, p y = true → key y ∈ ks :=
        fun y hy => hcov y (List.mem_cons_of_mem x hy)
      have h1 : ks.map (fun k => (x :: xs).countP (fun y => key y == k && p y))
          = ks.map (fun k => xs.countP (fun y => key y == k && p y)
              + (if key x == k && p x then 1 else 0)) :=
        List.map_congr_left (fun k _ => List.countP_cons _ x xs)
      rw [h1, sum_map_add, ih hcov2, List.countP_cons]
      congr 1
      by_cases hp : p x = true
      · have h2 : ks.map (fun k => if key x == k && p x then 1 else 0)
            = ks.map (fun k => if key x == k then 1 else 0) :=
          List.map_congr_left (fun k _ => by rw [hp, Bool.and_true])
        rw [h2, sum_indicator_eq_one ks (key x) hnd (hcov x (List.mem_cons_self x xs) hp),
          if_pos hp]
      · have hpf : p x = false := by simpa using hp
        have h2 : ks.map (fun k => if key x == k && p x then 1 else 0)
            = ks.map (fun _ => 0) :=
          List.map_congr_left (fun k _ => by rw [hpf, Bool.and_false]; rfl)
        rw [h2, if_neg hp]
        simp

/-- Summing the grouped found counts over the sorted distinct keys of the
catalog yields the overall found count. -/
theorem sum_stats_found (keyOf : HKItem → String) (catalog : List HKItem) :
    ((List.insertionSort (fun a b => a ≤ b) (catalog.map keyOf).dedup).map
      (fun k => catalog.countP (fun it => keyOf it == k && it.found))).sum
      = catalog.countP (fun it => it.found) := by
  have hperm := (List.perm_insertionSort (fun a b : String => a ≤ b)
    (catalog.map keyOf).dedup).map
    (fun k => catalog.countP (fun it => keyOf it == k && it.found))
  rw [hperm.sum_eq]
  exact sum_countP_eq_countP keyOf (fun it => it.found) catalog _
    (List.nodup_dedup _)
    (fun x hx _ => List.mem_dedup.mpr (List.mem_map_of_mem keyOf hx))

/-- Claim C5: the found counts of the per-region rollup sum to the overall
found count, and likewise for the per-category rollup, since region and
category each partition the catalog. -/
theorem stats_partition_sums (catalog : List HKItem) :
    ((statsByRegion catalog).map (fun s => s.found_count)).sum
      = (overallStats catalog).found_count ∧
    ((statsByCategory catalog).map (fun s => s.found_count)).sum
      = (overallStats catalog).found_count := by
  constructor
  · have h1 : (statsByRegion catalog).map (fun s => s.found_count)
        = (List.insertionSort (fun a b => a ≤ b)
            (catalog.map (fun it => it.region)).dedup).map
          (fun k => catalog.countP (fun it => it.region == k && it.found)) := by
      unfold statsByRegion regionsOf
      rw [List.map_map]
      exact List.map_congr_left (fun k _ => rfl)
    rw [h1]
    exact sum_stats_found (fun it => it.region) catalog
  · have h1 : (statsByCategory catalog).map (fun s => s.found_count)
        = (List.insertionSort (fun a b => a ≤ b)
            (catalog.map (fun it => it.category)).dedup).map
          (fun k => catalog.countP (fun it => it.category == k && it.found)) := by
      unfold statsByCategory categoriesOf
      rw [List.map_map]
      exact List.map_congr_left (fun k _ => rfl)
    rw [h1]
    exact sum_stats_found (fun it => it.category) catalog

end HK
